import Mathlib

/-!
Shallow embedding of the ngc-lava component-to-actor compiler
(`ngclava/mapping/component_mapper.py`) and of the `LavaContext`
lifecycle manager (`ngclava/lavaContext.py`).

Modelling conventions:
* Python dictionaries are association lists over `String` keys with
  insert-or-replace assignment (`aset`) and left-to-right lookup
  (`alookup`).
* numpy arrays are a shape together with the flattened data, over `Int`
  (the code computes with floats; every numeric example in the verified
  statements is integer-valued and nothing depends on rounding).
* Fallible Python code (KeyError, AttributeError, TypeError, a failed
  extraction) is modelled with `Except Err`.
* The lava substrate (`AbstractProcess`, `Var`, ports, the Loihi
  runtime) is external to the repository; the pieces of its contract
  the code relies on (ports live under prefixed `__dict__` keys, the
  port transport sums fan-in values) are modelled explicitly and
  flagged in the corresponding doc comments.
-/

namespace NgcLava

/-- A numpy-style array: a shape and the flattened data. -/
structure NpArr where
  shape : List Nat
  data : List Int
deriving DecidableEq, Repr

/-- A Python value as it circulates through the mapper: a numpy array, or
a tuple of values (the multi-output return of an update function). -/
inductive PyObj where
  | arr (a : NpArr)
  | tup (xs : List PyObj)

/-- `np.reshape`: keeps the flattened data, replaces the shape; a numpy
call fails when the element counts disagree. -/
def npReshape (a : NpArr) (s : List Nat) : Option NpArr :=
  if a.data.length = s.prod then some ⟨s, a.data⟩ else none

/-- `np.reshape` applied to a general object: only arrays reshape. -/
def objReshape : PyObj → List Nat → Option NpArr
  | .arr a, s => npReshape a s
  | .tup _, _ => none

/-- Iterating a numpy array yields its slices along the first axis;
a zero-dimensional array is not iterable (Python `TypeError`). -/
def npIterRows (a : NpArr) : Option (List PyObj) :=
  match a.shape with
  | [] => none
  | n :: rest =>
      some ((List.range n).map fun i =>
        .arr ⟨rest, (a.data.drop (i * rest.prod)).take rest.prod⟩)

/-- Python iteration over a value, as used by `zip`: a tuple yields its
elements, an array its first-axis rows. -/
def pyIter : PyObj → Option (List PyObj)
  | .arr a => npIterRows a
  | .tup xs => some xs

/-- Elementwise addition of two arrays of identical shape. -/
def npAdd (a b : NpArr) : Option NpArr :=
  if a.shape = b.shape then some ⟨a.shape, List.zipWith (· + ·) a.data b.data⟩
  else none

/-- Sum of a non-empty list of arrays; `none` on the empty list or on a
shape mismatch. -/
def npSumList : List NpArr → Option NpArr
  | [] => none
  | x :: xs => xs.foldlM npAdd x

/-! ### Python dictionaries as association lists -/

/-- Python dict lookup, `d[k]` / `d.get(k)` / `k in d`. -/
def alookup {α : Type} : List (String × α) → String → Option α
  | [], _ => none
  | (k, v) :: xs, key => if k = key then some v else alookup xs key

/-- Python dict assignment `d[k] = v`: replace in place, else append. -/
def aset {α : Type} : List (String × α) → String → α → List (String × α)
  | [], key, v => [(key, v)]
  | (k, w) :: xs, key, v =>
      if k = key then (k, v) :: xs else (k, w) :: aset xs key v

/-- The keys of a dictionary, `d.keys()`. -/
def akeys {α : Type} (xs : List (String × α)) : List String := xs.map Prod.fst

/-! ### Errors -/

/-- Python runtime failures raised by the mapped code. -/
inductive Err where
  | keyError (key : String)
  | attrError (name : String)
  | typeError
  | reshapeError
  | extraction (msg : String)
deriving DecidableEq, Repr

/-- Turn a failed `Option` into a raised error. -/
def orErr {α : Type} : Option α → Err → Except Err α
  | some a, _ => .ok a
  | none, e => .error e

/-- Monadic map over a list in `Except`, stopping at the first error
(Python raises out of the loop body). -/
def exMapM {ε α β : Type} (f : α → Except ε β) : List α → Except ε (List β)
  | [] => .ok []
  | x :: xs =>
      match f x with
      | .error e => .error e
      | .ok y =>
          match exMapM f xs with
          | .error e => .error e
          | .ok ys => .ok (y :: ys)

/-! ### The generated lava model class (`dynamic_lava_model`)

`map_component` closes over the parse result of `advance_state` and the
source component; the generated model's `run_spk` reads and writes the
model's attribute dictionary.  `ModelCfg` is the data the generated
class closes over; the attribute dictionary is passed explicitly. -/

/-- The data `dynamic_lava_model` closes over: the lag flag, the name
lists from `parse(source_obj, "advance_state")`, the declared output
shapes `source_obj.__dict__[oc].value.shape`, the set of compartments
that received an `_inp_` port, and the extracted pure update function. -/
structure ModelCfg where
  lag : Bool
  parameters : List String
  compartments : List String
  output_compartments : List String
  declShape : List (String × Option (List Nat))
  hasInp : List String
  pure_fn : List (String × PyObj) → List (String × PyObj) → PyObj

/-- One send on `_out_<oc>`:
`self.__dict__["_out_" + oc].send(np.reshape(self.__dict__[oc], source_obj.__dict__[oc].value.shape))`. -/
def emitOne (cfg : ModelCfg) (vars : List (String × PyObj)) (oc : String) :
    Except Err (String × NpArr) :=
  match alookup vars oc with
  | none => .error (.attrError oc)
  | some v =>
      match alookup cfg.declShape oc with
      | some (some s) =>
          match objReshape v s with
          | none => .error .reshapeError
          | some r => .ok (oc, r)
      | _ => .error (.attrError oc)

/-- The emission loop over every output compartment. -/
def emitAll (cfg : ModelCfg) (vars : List (String × PyObj)) :
    Except Err (List (String × NpArr)) :=
  exMapM (emitOne cfg vars) cfg.output_compartments

/-- The Gather phase: for every compartment that has an `_inp_` port,
overwrite the attribute with the received value
(`self.__dict__[comp] = self.__dict__["_inp_" + comp].recv()`).
`recv` supplies the value delivered by the port transport this tick. -/
def gatherPhase (cfg : ModelCfg) (recv : String → NpArr)
    (vars : List (String × PyObj)) : List (String × PyObj) :=
  cfg.compartments.foldl
    (fun vs c => if c ∈ cfg.hasInp then aset vs c (.arr (recv c)) else vs) vars

/-- Assemble keyword arguments from the attribute dictionary
(`{narg: self.__dict__[narg] for narg in ...}`). -/
def getArgs (vars : List (String × PyObj)) (names : List String) :
    Except Err (List (String × PyObj)) :=
  exMapM (fun n =>
    match alookup vars n with
    | none => .error (.attrError n)
    | some v => .ok (n, v)) names

/-- `for key, v in zip(output_compartments, vals): self.__dict__[key] = v`. -/
def writeOutputs (ocs : List String) (vals : List PyObj)
    (vars : List (String × PyObj)) : List (String × PyObj) :=
  (List.zip ocs vals).foldl (fun vs kv => aset vs kv.1 kv.2) vars

/-- The Gather + Run-Dynamics part of `run_spk`: receive inputs, call the
pure update function, and write the returned values into the output
compartments.  A single-element `output_compartments` wraps the raw
return value into a one-element list before zipping. -/
def computePhase (cfg : ModelCfg) (recv : String → NpArr)
    (vars : List (String × PyObj)) : Except Err (List (String × PyObj)) :=
  let gvars := gatherPhase cfg recv vars
  match getArgs gvars cfg.parameters with
  | .error e => .error e
  | .ok fp =>
      match getArgs gvars cfg.compartments with
      | .error e => .error e
      | .ok fc =>
          let vals := cfg.pure_fn fp fc
          match
            (if cfg.output_compartments.length = 1 then some [vals]
             else pyIter vals) with
          | none => .error .typeError
          | some valsList =>
              .ok (writeOutputs cfg.output_compartments valsList gvars)

/-- `dynamic_lava_model.run_spk`: one tick.  Lagged models emit the
pre-tick output values before gathering; non-lagged models emit after
the update has written the fresh values.  Returns the emitted
(port, value) pairs together with the post-tick attribute dictionary. -/
def runSpk (cfg : ModelCfg) (recv : String → NpArr)
    (vars : List (String × PyObj)) :
    Except Err (List (String × NpArr) × List (String × PyObj)) :=
  if cfg.lag then
    match emitAll cfg vars with
    | .error e => .error e
    | .ok emits =>
        match computePhase cfg recv vars with
        | .error e => .error e
        | .ok vars2 => .ok (emits, vars2)
  else
    match computePhase cfg recv vars with
    | .error e => .error e
    | .ok vars2 =>
        match emitAll cfg vars2 with
        | .error e => .error e
        | .ok emits => .ok (emits, vars2)

/-! ### The generated lava process class (`dynamic_lava_process`) and
`map_component` -/

/-- A lava `Var` as stored in the generated process instance: the shape
it was declared with and its current value. -/
structure VarCell where
  shape : List Nat
  value : PyObj

/-- A host-side attribute of a component (an entry of
`source_obj.__dict__`): either a plain value (a parameter) or a
Compartment object holding a value. -/
inductive HostAttr where
  | plain (v : PyObj)
  | compartment (v : PyObj)

/-- A connection of the host model.  `conn.destination.name` is a
path `"component/compartment"`, modelled pre-split as a pair; likewise
each entry of `conn.sources`. -/
structure Conn where
  dest : String × String
  sources : List (String × String)
deriving DecidableEq, Repr

/-- The result of `parse(source_obj, "advance_state")`: the extracted
pure function together with the ordered output-compartment, parameter
and compartment name lists (the `args` component is asserted empty by
`map_component` and omitted). -/
structure UpdateParse where
  fn : List (String × PyObj) → List (String × PyObj) → PyObj
  output_compartments : List String
  parameters : List String
  compartments : List String

/-- The result of `parse(source_obj, "reset")`.  The generated
`reset` passes the raw host attributes for parameters and the lava
`Var` objects (not their values) for compartments, so the extracted
function is typed accordingly here. -/
structure ResetParse where
  fn : List (String × PyObj) → List (String × VarCell) → PyObj
  output_compartments : List String
  parameters : List String
  compartments : List String

/-- A host component, as `map_component` and the context consume it:
its attribute dictionary, its connection list, and the outcome of the
two opaque extraction calls (`parse` is an external collaborator; its
result for each function name is data of the component here). -/
structure Component where
  name : String
  attrs : List (String × HostAttr)
  connections : List Conn
  parseAdvance : Except Err UpdateParse
  parseReset : Except Err ResetParse

/-- Python dict merge `{**a, **b}`: entries of `b` override `a`. -/
def dictMerge {α : Type} (a b : List (String × α)) : List (String × α) :=
  b.foldl (fun d kv => aset d kv.1 kv.2) a

/-- `{p: source_obj.__dict__[p] for p in parameters}`.  A parameter that
is a Compartment object has no `PyObj` representation in this model, so
that (never exercised) case is an error. -/
def paramsSnapshot (comp : Component) (names : List String) :
    Except Err (List (String × PyObj)) :=
  exMapM (fun p =>
    match alookup comp.attrs p with
    | none => .error (.keyError p)
    | some (.plain v) => .ok (p, v)
    | some (.compartment _) => .error .typeError) names

/-- `{c: source_obj.__dict__[c].value for c in compartments}`; a plain
attribute has no `.value` (Python `AttributeError`). -/
def compsSnapshot (comp : Component) (names : List String) :
    Except Err (List (String × PyObj)) :=
  exMapM (fun c =>
    match alookup comp.attrs c with
    | none => .error (.keyError c)
    | some (.plain _) => .error (.attrError c)
    | some (.compartment v) => .ok (c, v)) names

/-- The All-Values dictionary `all_vals` of `map_component`. -/
def allValsOf (comp : Component) (pr : UpdateParse) :
    Except Err (List (String × PyObj)) :=
  match paramsSnapshot comp pr.parameters with
  | .error e => .error e
  | .ok ps =>
      match compsSnapshot comp pr.compartments with
      | .error e => .error e
      | .ok cs =>
          match compsSnapshot comp pr.output_compartments with
          | .error e => .error e
          | .ok os => .ok (dictMerge (dictMerge ps cs) os)

/-- The data the generated `dynamic_lava_process` class closes over. -/
structure ProcClass where
  sourceComp : Component
  allVals : List (String × PyObj)
  output_compartments : List String
  pure_reset : Option ResetParse

/-- `source_obj.__dict__[oc].value.shape`, evaluated when the model
emits; `none` when the attribute chain does not resolve to an array. -/
def declShapeOf (comp : Component) (oc : String) : Option (List Nat) :=
  match alookup comp.attrs oc with
  | some (.compartment (.arr a)) => some a.shape
  | _ => none

/-- The destination compartments, in connection order, of the
connections whose destination is an `all_vals` key. -/
def connDests (avKeys : List String) (conns : List Conn) : List String :=
  conns.filterMap fun c => if c.dest.2 ∈ avKeys then some c.dest.2 else none

/-- The destination compartments for which the generated model class
receives an `_inp_` attribute (the loop `for conn in
source_obj.connections: if c_name in all_vals.keys(): ...`). -/
def hasInpOf (comp : Component) (avKeys : List String) : List String :=
  connDests avKeys comp.connections

/-- `map_component(source_obj, lag)`: parse `advance_state`
(mandatory), snapshot `all_vals`, parse `reset` inside `try/except`
(failure makes reset absent), and return the generated process and
model classes. -/
def mapComponent (comp : Component) (lag : Bool) :
    Except Err (ProcClass × ModelCfg) :=
  match comp.parseAdvance with
  | .error e => .error e
  | .ok pr =>
      match allValsOf comp pr with
      | .error e => .error e
      | .ok av =>
          .ok (⟨comp, av, pr.output_compartments,
                match comp.parseReset with
                | .ok rr => some rr
                | .error _ => none⟩,
               { lag := lag
                 parameters := pr.parameters
                 compartments := pr.compartments
                 output_compartments := pr.output_compartments
                 declShape :=
                   pr.output_compartments.map fun oc => (oc, declShapeOf comp oc)
                 hasInp := hasInpOf comp (akeys av)
                 pure_fn := pr.fn })

/-- A live `dynamic_lava_process` instance.  In Python everything lives
in one `__dict__`: `Var`s under their plain names, ports under
`"_inp_" + name` / `"_out_" + name` keys.  Since the prefixes make the
port keys disjoint from plain compartment names, the ports are modelled
as separate tables keyed by the bare name. -/
structure ProcInst where
  vars : List (String × VarCell)
  inPorts : List (String × List Nat)
  outPorts : List (String × List Nat)

/-- `Var(...)` shape argument: `v.shape if hasattr(v, 'shape') else (1,)`
where `v` is the `all_vals` snapshot value. -/
def varShapeOf : PyObj → List Nat
  | .arr a => a.shape
  | .tup _ => [1]

/-- `val = source_object.__dict__.get(k, kwargs.get(k, 0))` followed by
`val = val.value if hasattr(val, "value") else val`; the only kwarg
passed at instantiation is `name`, so the fallback is the scalar `0`. -/
def initVal (src : Component) (k : String) : PyObj :=
  match alookup src.attrs k with
  | some (.plain v) => v
  | some (.compartment v) => v
  | none => .arr ⟨[], [0]⟩

/-- The `Var`-creating loop of `dynamic_lava_process.__init__`:
one `Var` per `all_vals` entry, shaped from the snapshot value, holding
the instantiation-time value of the source object. -/
def mkVars (src : Component) (av : List (String × PyObj)) :
    List (String × VarCell) :=
  av.foldl (fun vs kv => aset vs kv.1 ⟨varShapeOf kv.2, initVal src kv.1⟩) []

/-- The `InPort`-creating loop of `__init__`: one port per connection
whose destination compartment is an `all_vals` key, shaped like the
just-created `Var` of that name (`self.__dict__[c_name].shape`). -/
def mkInPortsGo (avKeys : List String) (vars : List (String × VarCell)) :
    List Conn → List (String × List Nat) → Except Err (List (String × List Nat))
  | [], ports => .ok ports
  | c :: rest, ports =>
      if c.dest.2 ∈ avKeys then
        match alookup vars c.dest.2 with
        | none => .error (.keyError c.dest.2)
        | some cell => mkInPortsGo avKeys vars rest (aset ports c.dest.2 cell.shape)
      else mkInPortsGo avKeys vars rest ports

/-- The `OutPort`-creating loop of `__init__`: one port per output
compartment, shaped like the `Var` of that name. -/
def mkOutPortsGo (vars : List (String × VarCell)) :
    List String → List (String × List Nat) → Except Err (List (String × List Nat))
  | [], ports => .ok ports
  | oc :: rest, ports =>
      match alookup vars oc with
      | none => .error (.keyError oc)
      | some cell => mkOutPortsGo vars rest (aset ports oc cell.shape)

/-- The input-port table the `__init__` loop produces, written as a
direct list: one entry per connection whose destination is an
`all_vals` key with a `Var` of that name, carrying the `Var`'s shape. -/
def inPortsOf (avKeys : List String) (vars : List (String × VarCell))
    (conns : List Conn) : List (String × List Nat) :=
  conns.filterMap fun c =>
    if c.dest.2 ∈ avKeys then
      match alookup vars c.dest.2 with
      | some cell => some (c.dest.2, cell.shape)
      | none => none
    else none

/-- The output-port table of `__init__`, written as a direct list: one
entry per output compartment with a `Var`, carrying the `Var`'s shape. -/
def outPortsOf (vars : List (String × VarCell)) (ocs : List String) :
    List (String × List Nat) :=
  ocs.filterMap fun oc => (alookup vars oc).map fun cell => (oc, cell.shape)

/-- `dynamic_lava_process.__init__(source_object, name=k)`.  The
connection list and `all_vals` come from the class closure
(`source_obj`); the current attribute values come from the
instantiation argument `source_object`. -/
def dynamicProcessInit (pc : ProcClass) (sourceObject : Component) :
    Except Err ProcInst :=
  let vars := mkVars sourceObject pc.allVals
  match mkInPortsGo (akeys pc.allVals) vars pc.sourceComp.connections [] with
  | .error e => .error e
  | .ok ip =>
      match mkOutPortsGo vars pc.output_compartments [] with
      | .error e => .error e
      | .ok op => .ok ⟨vars, ip, op⟩

/-- `{narg: source_obj.__dict__[narg] for narg in parameters_reset}` —
the raw host attributes (no `.value` projection). -/
def resetParams (src : Component) (names : List String) :
    Except Err (List (String × PyObj)) :=
  exMapM (fun n =>
    match alookup src.attrs n with
    | none => .error (.keyError n)
    | some (.plain v) => .ok (n, v)
    | some (.compartment _) => .error .typeError) names

/-- `{narg: self.__dict__[narg] for narg in compartments_reset}` — the
`Var` objects themselves. -/
def resetComps (vars : List (String × VarCell)) (names : List String) :
    Except Err (List (String × VarCell)) :=
  exMapM (fun n =>
    match alookup vars n with
    | none => .error (.attrError n)
    | some cell => .ok (n, cell)) names

/-- `for key, v in zip(...): self.__dict__[key].set(v)`. -/
def varSetAll : List (String × PyObj) → List (String × VarCell) →
    Except Err (List (String × VarCell))
  | [], vars => .ok vars
  | (key, v) :: rest, vars =>
      match alookup vars key with
      | none => .error (.keyError key)
      | some cell => varSetAll rest (aset vars key ⟨cell.shape, v⟩)

/-- `dynamic_lava_process.reset`: a no-op when the reset extraction
failed; otherwise it gathers raw parameters from the closed-over source
object and the `Var` objects of the declared compartments, calls the
pure reset function, and zips the returned value (iterating it — there
is no singleton wrapping here) against the declared reset output
compartments. -/
def procReset (src : Component) (rp : Option ResetParse)
    (vars : List (String × VarCell)) : Except Err (List (String × VarCell)) :=
  match rp with
  | none => .ok vars
  | some ri =>
      match resetParams src ri.parameters with
      | .error e => .error e
      | .ok fp =>
          match resetComps vars ri.compartments with
          | .error e => .error e
          | .ok fc =>
              match pyIter (ri.fn fp fc) with
              | none => .error .typeError
              | some valsList =>
                  varSetAll (List.zip ri.output_compartments valsList) vars

/-! ### The wiring pass (`LavaContext._wire_lava_processes`) -/

/-- A registered wiring edge `dest.connect_from(sor)`: the consuming
(component, input-port) pair and the producing (component, output-port)
pair. -/
structure Edge where
  dest : String × String
  src : String × String
deriving DecidableEq, Repr

/-- Every failure of the wiring pass is a Python `KeyError` on a
component or port name that does not resolve — the spec's
`UnresolvedReferenceError`. -/
inductive WireErr where
  | unresolvedReference (key : String)
deriving DecidableEq, Repr

/-- `dest_compartment not in self.mapped_processes[dest_component].__dict__.keys()`:
the instance dictionary holds the `Var`s under plain names; the port
keys carry `_inp_`/`_out_` prefixes and cannot collide with a plain
compartment name. -/
def procDictHasVar (p : ProcInst) (n : String) : Bool :=
  (alookup p.vars n).isSome

/-- Resolve one source of a connection and register the edge
(`sor = ...__dict__["_out_" + source_compartment]; dest.connect_from(sor)`). -/
def wireSource (mapped : List (String × ProcInst)) (dc : String × String)
    (s : String × String) : Except WireErr Edge :=
  match alookup mapped s.1 with
  | none => .error (.unresolvedReference s.1)
  | some sp =>
      match alookup sp.outPorts s.2 with
      | none => .error (.unresolvedReference s.2)
      | some _ => .ok ⟨dc, s⟩

/-- Process one connection: resolve the destination process, skip the
connection when the destination compartment is not in its dictionary,
otherwise look up the `_inp_` port and register one edge per source. -/
def wireConn (mapped : List (String × ProcInst)) (conn : Conn) :
    Except WireErr (List Edge) :=
  match alookup mapped conn.dest.1 with
  | none => .error (.unresolvedReference conn.dest.1)
  | some dp =>
      if procDictHasVar dp conn.dest.2 then
        match alookup dp.inPorts conn.dest.2 with
        | none => .error (.unresolvedReference conn.dest.2)
        | some _ => exMapM (wireSource mapped conn.dest) conn.sources
      else .ok []

/-- All edges contributed by one host component's connection list. -/
def wireComponent (mapped : List (String × ProcInst)) (comp : Component) :
    Except WireErr (List Edge) :=
  match exMapM (wireConn mapped) comp.connections with
  | .error e => .error e
  | .ok ess => .ok ess.flatten

/-- `LavaContext._wire_lava_processes`: wire every connection of every
component. -/
def wireLavaProcesses (components : List (String × Component))
    (mapped : List (String × ProcInst)) : Except WireErr (List Edge) :=
  match exMapM (fun kv => wireComponent mapped kv.2) components with
  | .error e => .error e
  | .ok ess => .ok ess.flatten

/-- Modelled from the spec: the port transport of the external lava
substrate.  A `recv()` on an input port delivers the arithmetic sum of
the values emitted this tick on all wiring edges bound to the port
(§3 fan-in accumulation contract; the summation itself happens inside
lava's `PyInPort`, outside this repository). -/
def recvFanIn (emits : String × String → NpArr) (edges : List Edge) :
    Option NpArr :=
  npSumList (edges.map fun e => emits e.src)

/-! ### Syncing back (`LavaContext.write_to_ngc`) -/

/-- One component's slice of `write_to_ngc`: for every `Var` of the
mapped process (iterated in dictionary order), look up the same-named
host attribute — a `KeyError` if absent — and overwrite it only when it
is a Compartment (`Compartment.is_compartment(...)`); plain attributes
are skipped. -/
def writeVars (host : List (String × HostAttr)) :
    List (String × VarCell) → Except Err (List (String × HostAttr))
  | [] => .ok host
  | (name, cell) :: rest =>
      match alookup host name with
      | none => .error (.keyError name)
      | some (.compartment _) =>
          writeVars (aset host name (.compartment cell.value)) rest
      | some (.plain _) => writeVars host rest

/-- `LavaContext.write_to_ngc`: for every mapped process, write its
`Var`s back into the same-named component of the registry
(`self.components[p_name]`). -/
def writeToNgc : List (String × ProcInst) → List (String × Component) →
    Except Err (List (String × Component))
  | [], comps => .ok comps
  | (pname, lc) :: rest, comps =>
      match alookup comps pname with
      | none => .error (.keyError pname)
      | some comp =>
          match writeVars comp.attrs lc.vars with
          | .error e => .error e
          | .ok attrs2 =>
              writeToNgc rest (aset comps pname { comp with attrs := attrs2 })

/-! ### The context lifecycle (`LavaContext`) -/

/-- The mutable state of a `LavaContext` that the verified lifecycle
operations touch: the runtime flags, the pending-rebuild flag, the host
components with their lag table, and the three mappings the rebuild
replaces. -/
structure Ctx where
  inRuntime : Bool
  exitedRuntime : Bool
  rebuildFlag : Bool
  components : List (String × Component)
  lagging : List (String × Bool)
  dynProcesses : List (String × ProcClass)
  dynModels : List (String × ModelCfg)
  mapped : List (String × ProcInst)

/-- A rebuild failure: a compile-phase Python error or a wiring
`KeyError`. -/
inductive CtxErr where
  | compile (e : Err)
  | wire (w : WireErr)

/-- `LavaContext._update_dynamic_class`: recompile every component in
registry order, storing each result into the two class mappings as it
is produced; a raised error propagates immediately, leaving the
mappings as mutated so far. -/
def updateDynamicClasses (lagging : List (String × Bool)) :
    List (String × Component) →
    List (String × ProcClass) × List (String × ModelCfg) →
    Option Err × (List (String × ProcClass) × List (String × ModelCfg))
  | [], maps => (none, maps)
  | (k, c) :: rest, (ps, ms) =>
      match mapComponent c ((alookup lagging k).getD false) with
      | .error e => (some e, (ps, ms))
      | .ok (pc, mc) =>
          updateDynamicClasses lagging rest (aset ps k pc, aset ms k mc)

/-- `LavaContext._build_lava_processes`: instantiate each component's
generated process class (`self.dynamic_lava_processes[k](v, name=k)`),
storing instances one at a time; an error propagates immediately. -/
def buildProcesses (dynP : List (String × ProcClass)) :
    List (String × Component) → List (String × ProcInst) →
    Option Err × List (String × ProcInst)
  | [], mp => (none, mp)
  | (k, c) :: rest, mp =>
      match alookup dynP k with
      | none => (some (.keyError k), mp)
      | some pc =>
          match dynamicProcessInit pc c with
          | .error e => (some e, mp)
          | .ok inst => buildProcesses dynP rest (aset mp k inst)

/-- `LavaContext.rebuild_lava(toggle_off=True)`: refuse (warn, return)
while a runtime is in progress or when the environment is not lava
compatible; otherwise recompile the classes, re-instantiate the
processes, rewire, and only then clear the exited-runtime flag and
(by default) the pending-rebuild flag.  An error in any phase
propagates, keeping the mutations made so far. -/
def rebuildLava (compatible : Bool) (ctx : Ctx) (toggleOff : Bool) :
    Option CtxErr × Ctx :=
  if ctx.inRuntime then (none, ctx)
  else if !compatible then (none, ctx)
  else
    match updateDynamicClasses ctx.lagging ctx.components
        (ctx.dynProcesses, ctx.dynModels) with
    | (some e, (ps, ms)) =>
        (some (.compile e), { ctx with dynProcesses := ps, dynModels := ms })
    | (none, (ps, ms)) =>
        let ctx1 := { ctx with dynProcesses := ps, dynModels := ms }
        match buildProcesses ps ctx.components ctx.mapped with
        | (some e, mp) => (some (.compile e), { ctx1 with mapped := mp })
        | (none, mp) =>
            let ctx2 := { ctx1 with mapped := mp }
            match wireLavaProcesses ctx.components mp with
            | .error w => (some (.wire w), ctx2)
            | .ok _ =>
                (none,
                 { ctx2 with
                    exitedRuntime := false
                    rebuildFlag := if toggleOff then false else ctx2.rebuildFlag })

/-- The generated `start_runtime` command: warn-and-return when already
running or when a previous runtime has exited; otherwise enter the
runtime (the subsequent `run(0)`/`pause` touch no flags). -/
def startRuntime (ctx : Ctx) : Ctx :=
  if ctx.inRuntime then ctx
  else if ctx.exitedRuntime then ctx
  else { ctx with inRuntime := true }

/-- The generated `stop` command: `_can_run` reports when no runtime is
in progress (leaving the state untouched); otherwise the runtime stops,
`_in_runtime` clears and `_exited_runtime` is set — the terminal
state. -/
def stopRuntime (ctx : Ctx) : Ctx :=
  if ctx.inRuntime then { ctx with inRuntime := false, exitedRuntime := true }
  else ctx

/-- The runtime-control surface relevant to the lifecycle flags.
`pause` and `run(t)` touch no flags (`run` executes ticks and then
pauses); `rebuild` carries the environment compatibility and the
`toggle_off` argument. -/
inductive LcOp where
  | start
  | stop
  | pause
  | runT (t : Nat)
  | rebuild (compatible toggleOff : Bool)

def lcStep (ctx : Ctx) : LcOp → Ctx
  | .start => startRuntime ctx
  | .stop => stopRuntime ctx
  | .pause => ctx
  | .runT _ => ctx
  | .rebuild compatible toggleOff => (rebuildLava compatible ctx toggleOff).2

def LcOp.isRebuild : LcOp → Bool
  | .rebuild _ _ => true
  | _ => false

/-- Example model used to witness the lag protocol: one input compartment
fed by a port, one output compartment `v` holding `5`, update
`v' = v + input`. -/
def cfgC1 : ModelCfg where
  lag := true
  parameters := []
  compartments := ["v", "inp"]
  output_compartments := ["v"]
  declShape := [("v", some [1])]
  hasInp := ["inp"]
  pure_fn := fun _ fc =>
    match alookup fc "v", alookup fc "inp" with
    | some (.arr a), some (.arr b) => .arr ⟨[1], [a.data.headI + b.data.headI]⟩
    | _, _ => .arr ⟨[], []⟩

def varsC1 : List (String × PyObj) :=
  [("v", .arr ⟨[1], [5]⟩), ("inp", .arr ⟨[1], [0]⟩)]

def recvC1 : String → NpArr := fun _ => ⟨[1], [2]⟩

def emitsC1 : List (String × NpArr) := [("v", ⟨[1], [5]⟩)]

def vars2C1 : List (String × PyObj) :=
  [("v", .arr ⟨[1], [7]⟩), ("inp", .arr ⟨[1], [2]⟩)]

/-- Component used to witness C6: a well-formed update extraction, a
failed reset extraction. -/
def updC6 : UpdateParse where
  fn := fun _ _ => .arr ⟨[1], [6]⟩
  output_compartments := ["v"]
  parameters := ["k"]
  compartments := ["v"]

def compC6 : Component where
  name := "c6"
  attrs := [("v", .compartment (.arr ⟨[1], [2]⟩)), ("k", .plain (.arr ⟨[1], [3]⟩))]
  connections := []
  parseAdvance := .ok updC6
  parseReset := .error (.extraction "reset not resolvable")

def avC6 : List (String × PyObj) :=
  [("k", .arr ⟨[1], [3]⟩), ("v", .arr ⟨[1], [2]⟩)]

def pcC6 : ProcClass := ⟨compC6, avC6, ["v"], none⟩

def mcC6 : ModelCfg where
  lag := false
  parameters := ["k"]
  compartments := ["v"]
  output_compartments := ["v"]
  declShape := [("v", some [1])]
  hasInp := []
  pure_fn := updC6.fn

/-- Data used to witness C10: an update function with a single output
slot returning a tuple (written whole), and a reset function whose
single-element return is unpacked by iteration. -/
def cfgC10 : ModelCfg where
  lag := false
  parameters := []
  compartments := []
  output_compartments := ["v"]
  declShape := [("v", some [1])]
  hasInp := []
  pure_fn := fun _ _ => .tup [.arr ⟨[1], [9]⟩]

def varsC10 : List (String × PyObj) := [("v", .arr ⟨[1], [1]⟩)]

def recvC10 : String → NpArr := fun _ => ⟨[], [0]⟩

def vars2C10 : List (String × PyObj) := [("v", .tup [.arr ⟨[1], [9]⟩])]

def srcC10 : Component where
  name := "c10"
  attrs := []
  connections := []
  parseAdvance := .error (.extraction "unused")
  parseReset := .error (.extraction "unused")

def riC10 : ResetParse where
  fn := fun _ _ => .tup [.arr ⟨[], [4]⟩]
  output_compartments := ["z"]
  parameters := []
  compartments := []

def varsRC10 : List (String × VarCell) :=
  [("z", ⟨[1], .arr ⟨[], [0]⟩⟩), ("w", ⟨[1], .arr ⟨[], [7]⟩⟩)]

def vars2RC10 : List (String × VarCell) :=
  [("z", ⟨[1], .arr ⟨[], [4]⟩⟩), ("w", ⟨[1], .arr ⟨[], [7]⟩⟩)]

/-- Component used to witness C5: one state slot `v`, one parameter
`k`, no connections (the spec's no-connection round trip). -/
def updC5 : UpdateParse where
  fn := fun _ _ => .arr ⟨[1], [1]⟩
  output_compartments := ["v"]
  parameters := ["k"]
  compartments := ["v"]

def compC5 : Component where
  name := "x"
  attrs := [("v", .compartment (.arr ⟨[1], [2]⟩)), ("k", .plain (.arr ⟨[1], [1]⟩))]
  connections := []
  parseAdvance := .ok updC5
  parseReset := .error (.extraction "no reset")

def avC5 : List (String × PyObj) :=
  [("k", .arr ⟨[1], [1]⟩), ("v", .arr ⟨[1], [2]⟩)]

def pcC5 : ProcClass := ⟨compC5, avC5, ["v"], none⟩

def mcC5 : ModelCfg where
  lag := false
  parameters := ["k"]
  compartments := ["v"]
  output_compartments := ["v"]
  declShape := [("v", some [1])]
  hasInp := []
  pure_fn := updC5.fn

def procC5 : ProcInst where
  vars := [("k", ⟨[1], .arr ⟨[1], [1]⟩⟩), ("v", ⟨[1], .arr ⟨[1], [2]⟩⟩)]
  inPorts := []
  outPorts := [("v", [1])]

/-- Data used to witness C4: consumer `a` (input port `u`, a second
connection whose destination `zz` is not a state variable) and
producer `b` (output port `w`). -/
def updC4 : UpdateParse where
  fn := fun _ _ => .arr ⟨[1], [0]⟩
  output_compartments := ["v"]
  parameters := []
  compartments := ["u", "v"]

def connC4good : Conn := ⟨("a", "u"), [("b", "w")]⟩

def connC4skip : Conn := ⟨("a", "zz"), [("b", "w")]⟩

def compC4A : Component where
  name := "a"
  attrs := [("v", .compartment (.arr ⟨[1], [2]⟩)),
            ("u", .compartment (.arr ⟨[1], [0]⟩))]
  connections := [connC4good, connC4skip]
  parseAdvance := .ok updC4
  parseReset := .error (.extraction "no reset")

def avC4 : List (String × PyObj) :=
  [("u", .arr ⟨[1], [0]⟩), ("v", .arr ⟨[1], [2]⟩)]

def pcC4 : ProcClass := ⟨compC4A, avC4, ["v"], none⟩

def procC4A : ProcInst where
  vars := [("u", ⟨[1], .arr ⟨[1], [0]⟩⟩), ("v", ⟨[1], .arr ⟨[1], [2]⟩⟩)]
  inPorts := [("u", [1])]
  outPorts := [("v", [1])]

def procC4B : ProcInst where
  vars := [("w", ⟨[1], .arr ⟨[1], [3]⟩⟩)]
  inPorts := []
  outPorts := [("w", [1])]

def mappedC4 : List (String × ProcInst) := [("a", procC4A), ("b", procC4B)]

def connC4badsrc : Conn := ⟨("a", "u"), [("b", "nope")]⟩

def connC4badcomp : Conn := ⟨("nope", "u"), []⟩

def compC4Bad : Component where
  name := "a"
  attrs := compC4A.attrs
  connections := [connC4badcomp]
  parseAdvance := .ok updC4
  parseReset := .error (.extraction "no reset")

/-- Data used to witness C2: a consumer with one input port `u` wired
from two producers emitting `3` and `4`. -/
def procC2A : ProcInst where
  vars := [("u", ⟨[1], .arr ⟨[1], [0]⟩⟩)]
  inPorts := [("u", [1])]
  outPorts := []

def procC2B : ProcInst where
  vars := []
  inPorts := []
  outPorts := [("o1", [1])]

def procC2C : ProcInst where
  vars := []
  inPorts := []
  outPorts := [("o2", [1])]

def mappedC2 : List (String × ProcInst) :=
  [("a", procC2A), ("b", procC2B), ("c", procC2C)]

def connC2 : Conn := ⟨("a", "u"), [("b", "o1"), ("c", "o2")]⟩

def emitsC2 : String × String → NpArr := fun s =>
  if s = ("b", "o1") then ⟨[1], [3]⟩
  else if s = ("c", "o2") then ⟨[1], [4]⟩
  else ⟨[1], [0]⟩

def esC2 : List Edge := [⟨("a", "u"), ("b", "o1")⟩, ⟨("a", "u"), ("c", "o2")⟩]

/-- Data used to witness C9: host attributes `v` (compartment, synced),
`k` (plain, skipped even though a `Var` of that name exists) and
`other` (no matching `Var`, untouched). -/
def hostC9 : List (String × HostAttr) :=
  [("v", .compartment (.arr ⟨[1], [2]⟩)), ("k", .plain (.arr ⟨[1], [5]⟩)),
   ("other", .plain (.arr ⟨[1], [9]⟩))]

def varsC9 : List (String × VarCell) :=
  [("v", ⟨[1], .arr ⟨[1], [8]⟩⟩), ("k", ⟨[1], .arr ⟨[1], [6]⟩⟩)]

def hostC9After : List (String × HostAttr) :=
  [("v", .compartment (.arr ⟨[1], [8]⟩)), ("k", .plain (.arr ⟨[1], [5]⟩)),
   ("other", .plain (.arr ⟨[1], [9]⟩))]

/-- Data used for C3 and C7: a context with two components, the second
of which fails extraction, and previously built class/instance
mappings. -/
def updC3 : UpdateParse where
  fn := fun _ _ => .arr ⟨[1], [1]⟩
  output_compartments := ["v"]
  parameters := ["k"]
  compartments := ["v"]

def compC3A : Component where
  name := "a"
  attrs := [("v", .compartment (.arr ⟨[1], [2]⟩)), ("k", .plain (.arr ⟨[1], [1]⟩))]
  connections := []
  parseAdvance := .ok updC3
  parseReset := .error (.extraction "no reset")

def compC3B : Component where
  name := "b"
  attrs := []
  connections := []
  parseAdvance := .error (.extraction "bad update")
  parseReset := .error (.extraction "no reset")

def oldPcC3A : ProcClass := ⟨compC3A, [], ["oldA"], none⟩

def oldPcC3B : ProcClass := ⟨compC3B, [], ["oldB"], none⟩

def oldMcC3 : ModelCfg where
  lag := false
  parameters := []
  compartments := []
  output_compartments := ["old"]
  declShape := []
  hasInp := []
  pure_fn := fun _ _ => .arr ⟨[], []⟩

def oldInstC3 : ProcInst := ⟨[], [], []⟩

def ctxC3 : Ctx where
  inRuntime := false
  exitedRuntime := true
  rebuildFlag := true
  components := [("a", compC3A), ("b", compC3B)]
  lagging := []
  dynProcesses := [("a", oldPcC3A), ("b", oldPcC3B)]
  dynModels := [("a", oldMcC3), ("b", oldMcC3)]
  mapped := [("a", oldInstC3)]

def ctxC7 : Ctx where
  inRuntime := true
  exitedRuntime := false
  rebuildFlag := true
  components := [("a", compC3A)]
  lagging := []
  dynProcesses := [("a", oldPcC3A)]
  dynModels := [("a", oldMcC3)]
  mapped := [("a", oldInstC3)]

/-- Data used to witness C8: a context whose previous runtime has fully
stopped (`exitedRuntime`), holding one well-formed component so a full
rebuild succeeds. -/
def compC8 : Component where
  name := "x"
  attrs := [("v", .compartment (.arr ⟨[1], [2]⟩)), ("k", .plain (.arr ⟨[1], [1]⟩))]
  connections := []
  parseAdvance := .ok updC3
  parseReset := .error (.extraction "no reset")

def ctxC8 : Ctx where
  inRuntime := false
  exitedRuntime := true
  rebuildFlag := false
  components := [("x", compC8)]
  lagging := []
  dynProcesses := []
  dynModels := []
  mapped := []

def ctxC8run : Ctx where
  inRuntime := true
  exitedRuntime := false
  rebuildFlag := false
  components := [("x", compC8)]
  lagging := []
  dynProcesses := []
  dynModels := []
  mapped := []

theorem alookup_aset_self {α : Type} (xs : List (String × α)) (k : String) (v : α) :
    alookup (aset xs k v) k = some v := by
  induction xs with
  | nil => simp [aset, alookup]
  | cons hd tl ih =>
      obtain ⟨k0, w⟩ := hd
      by_cases h : k0 = k <;> simp [aset, alookup, h, ih]

theorem alookup_aset_ne {α : Type} (xs : List (String × α)) (k key : String) (v : α)
    (h : key ≠ k) : alookup (aset xs key v) k = alookup xs k := by
  induction xs with
  | nil => simp [aset, alookup, h]
  | cons hd tl ih =>
      obtain ⟨k0, w⟩ := hd
      by_cases h0 : k0 = key
      · subst h0; simp [aset, alookup, h]
      · simp [aset, alookup, h0, ih]

theorem aset_fresh {α : Type} (xs : List (String × α)) (k : String) (v : α)
    (h : alookup xs k = none) : aset xs k v = xs ++ [(k, v)] := by
  induction xs with
  | nil => simp [aset]
  | cons hd tl ih =>
      obtain ⟨k0, w⟩ := hd
      by_cases h0 : k0 = k
      · subst h0; simp [alookup] at h
      · simp [alookup, h0] at h
        simp [aset, h0, ih h]

theorem alookup_isSome_aset {α : Type} (xs : List (String × α)) (k key : String) (v : α) :
    (alookup (aset xs key v) k).isSome ↔ k = key ∨ (alookup xs k).isSome := by
  by_cases h : k = key
  · subst h; simp [alookup_aset_self]
  · rw [alookup_aset_ne xs k key v (Ne.symm h)]
    simp [h]

theorem alookup_append {α : Type} (xs ys : List (String × α)) (k : String) :
    alookup (xs ++ ys) k = ((alookup xs k).rec (alookup ys k) fun v => some v) := by
  induction xs with
  | nil => simp [alookup]
  | cons hd tl ih =>
      obtain ⟨k0, w⟩ := hd
      by_cases h : k0 = k <;> simp [alookup, h, ih]

theorem exMapM_ok_forall {ε α β : Type} (f : α → Except ε β) (l : List α) (r : List β)
    (h : exMapM f l = .ok r) : ∀ x ∈ l, ∃ y, f x = .ok y := by
  induction l generalizing r with
  | nil => simp
  | cons hd tl ih =>
      intro x hx
      simp only [exMapM] at h
      cases hfh : f hd with
      | error e => rw [hfh] at h; exact absurd h (by simp)
      | ok y =>
          rw [hfh] at h
          cases htl : exMapM f tl with
          | error e => rw [htl] at h; exact absurd h (by simp)
          | ok ys =>
              rcases List.mem_cons.mp hx with hx1 | hx1
              · exact ⟨y, hx1 ▸ hfh⟩
              · exact ih ys htl x hx1

theorem exMapM_not_ok {ε α β : Type} (f : α → Except ε β) (l : List α)
    (x : α) (hx : x ∈ l) (hbad : ∀ y, f x ≠ .ok y) :
    ∀ r, exMapM f l ≠ .ok r := by
  intro r hr
  obtain ⟨y, hy⟩ := exMapM_ok_forall f l r hr x hx
  exact hbad y hy

theorem exMapM_ok_map {ε α β : Type} (f : α → Except ε β) (g : α → β)
    (hfg : ∀ x y, f x = .ok y → y = g x) (l : List α) (r : List β)
    (h : exMapM f l = .ok r) : r = l.map g := by
  induction l generalizing r with
  | nil => simp [exMapM] at h; simp [h]
  | cons hd tl ih =>
      simp only [exMapM] at h
      cases hfh : f hd with
      | error e => rw [hfh] at h; exact absurd h (by simp)
      | ok y =>
          rw [hfh] at h
          cases htl : exMapM f tl with
          | error e => rw [htl] at h; exact absurd h (by simp)
          | ok ys =>
              rw [htl] at h
              simp only [Except.ok.injEq] at h
              subst h
              simp [hfg hd y hfh, ih ys htl]

theorem exMapM_mem_of_ok {ε α β : Type} (f : α → Except ε β) (l : List α) (r : List β)
    (h : exMapM f l = .ok r) : ∀ y ∈ r, ∃ x ∈ l, f x = .ok y := by
  induction l generalizing r with
  | nil => simp [exMapM] at h; simp [h]
  | cons hd tl ih =>
      simp only [exMapM] at h
      cases hfh : f hd with
      | error e => rw [hfh] at h; exact absurd h (by simp)
      | ok y =>
          rw [hfh] at h
          cases htl : exMapM f tl with
          | error e => rw [htl] at h; exact absurd h (by simp)
          | ok ys =>
              rw [htl] at h
              simp only [Except.ok.injEq] at h
              subst h
              intro z hz
              rcases List.mem_cons.mp hz with hz1 | hz1
              · exact ⟨hd, by simp, hz1 ▸ hfh⟩
              · obtain ⟨x, hx, hfx⟩ := ih ys htl z hz1
                exact ⟨x, by simp [hx], hfx⟩

theorem emitOne_ok (cfg : ModelCfg) (vars : List (String × PyObj)) (oc : String)
    (p : String × NpArr) (h : emitOne cfg vars oc = .ok p) :
    ∃ v s, p.1 = oc ∧ alookup vars oc = some v ∧
      alookup cfg.declShape oc = some (some s) ∧ objReshape v s = some p.2 := by
  cases hv : alookup vars oc with
  | none => simp [emitOne, hv] at h
  | some v =>
      cases hs : alookup cfg.declShape oc with
      | none => simp [emitOne, hv, hs] at h
      | some so =>
          cases so with
          | none => simp [emitOne, hv, hs] at h
          | some s =>
              cases hr : objReshape v s with
              | none => simp [emitOne, hv, hs, hr] at h
              | some r =>
                  simp only [emitOne, hv, hs, hr, Except.ok.injEq] at h
                  exact ⟨v, s, by simp [← h], rfl, rfl, by simp [hr, ← h]⟩

theorem emitAll_mem (cfg : ModelCfg) (varsX : List (String × PyObj))
    (emits : List (String × NpArr)) (h : emitAll cfg varsX = .ok emits) :
    ∀ p ∈ emits, ∃ v s, alookup varsX p.1 = some v ∧
      alookup cfg.declShape p.1 = some (some s) ∧ objReshape v s = some p.2 := by
  intro p hp
  obtain ⟨oc, _, hone⟩ := exMapM_mem_of_ok _ _ _ h p hp
  obtain ⟨v, s, h1, h2, h3, h4⟩ := emitOne_ok cfg varsX oc p hone
  exact ⟨v, s, h1 ▸ h2, h1 ▸ h3, h4⟩

/-- C1: on every successful tick of a compiled actor, a lagged model emits
the reshaped pre-tick values of the output compartments (computed from the
attribute dictionary as it stood before any input port was received), a
non-lagged model emits the reshaped post-update values, and each emitted
value is the backing state variable reshaped to the declared output shape. -/
theorem claim_C1_lag_emission (cfg : ModelCfg) (recv : String → NpArr)
    (vars : List (String × PyObj)) (emits : List (String × NpArr))
    (vars2 : List (String × PyObj))
    (h : runSpk cfg recv vars = .ok (emits, vars2)) :
    (cfg.lag = true →
      emitAll cfg vars = .ok emits ∧ computePhase cfg recv vars = .ok vars2) ∧
    (cfg.lag = false →
      computePhase cfg recv vars = .ok vars2 ∧ emitAll cfg vars2 = .ok emits) ∧
    (∀ p ∈ emits, ∃ v s,
      alookup (if cfg.lag then vars else vars2) p.1 = some v ∧
      alookup cfg.declShape p.1 = some (some s) ∧ objReshape v s = some p.2) := by
  cases hl : cfg.lag with
  | true =>
      rw [runSpk, hl] at h
      simp only [if_true] at h
      cases he : emitAll cfg vars with
      | error e => rw [he] at h; exact absurd h (by simp)
      | ok es =>
          rw [he] at h
          cases hc : computePhase cfg recv vars with
          | error e => rw [hc] at h; exact absurd h (by simp)
          | ok vs =>
              rw [hc] at h
              simp only [Except.ok.injEq, Prod.mk.injEq] at h
              obtain ⟨h1, h2⟩ := h
              subst h1; subst h2
              refine ⟨fun _ => ⟨rfl, rfl⟩, fun hf => absurd hf (by simp), ?_⟩
              simpa using emitAll_mem cfg vars es he
  | false =>
      rw [runSpk, hl] at h
      simp only [Bool.false_eq_true, if_false] at h
      cases hc : computePhase cfg recv vars with
      | error e => rw [hc] at h; exact absurd h (by simp)
      | ok vs =>
          rw [hc] at h
          dsimp only at h
          cases he : emitAll cfg vs with
          | error e => rw [he] at h; exact absurd h (by simp)
          | ok es =>
              rw [he] at h
              simp only [Except.ok.injEq, Prod.mk.injEq] at h
              obtain ⟨h1, h2⟩ := h
              subst h1; subst h2
              refine ⟨fun ht => absurd ht (by simp), fun _ => ⟨rfl, he⟩, ?_⟩
              simpa using emitAll_mem cfg vs es he

/-- Witness for C1: the lagged example actor entering a tick with `v = 5`
emits `5` even though the update (receiving input `2`) raises `v` to `7`. -/
theorem claim_C1_lag_emission_witness :
    runSpk cfgC1 recvC1 varsC1 = .ok (emitsC1, vars2C1) ∧
    emitAll cfgC1 varsC1 = .ok emitsC1 ∧
    alookup vars2C1 "v" = some (.arr ⟨[1], [7]⟩) :=
  ⟨by rfl,
   ((claim_C1_lag_emission cfgC1 recvC1 varsC1 emitsC1 vars2C1 (by rfl)).1 rfl).1,
   by rfl⟩

/-- C6: `map_component` tolerates a failed reset extraction — the
component still compiles, its reset slot is absent, and invoking reset
is then a no-op on the state variables — while a failed update
extraction aborts that component's compile with the extraction
error. -/
theorem claim_C6_optional_reset (comp : Component) (lag : Bool)
    (e e2 : Err) (pc : ProcClass) (mc : ModelCfg) :
    (comp.parseReset = .error e → mapComponent comp lag = .ok (pc, mc) →
      pc.pure_reset = none ∧
      ∀ vars, procReset pc.sourceComp pc.pure_reset vars = .ok vars) ∧
    (comp.parseAdvance = .error e2 → mapComponent comp lag = .error e2) := by
  constructor
  · intro hr hm
    unfold mapComponent at hm
    cases hp : comp.parseAdvance with
    | error e3 => rw [hp] at hm; exact absurd hm (by simp)
    | ok pr =>
        rw [hp] at hm
        dsimp only at hm
        cases hav : allValsOf comp pr with
        | error e3 => rw [hav] at hm; exact absurd hm (by simp)
        | ok av =>
            rw [hav, hr] at hm
            dsimp only at hm
            simp only [Except.ok.injEq, Prod.mk.injEq] at hm
            obtain ⟨h1, _⟩ := hm
            refine ⟨by rw [← h1], fun vars => by rw [← h1]; rfl⟩
  · intro ha
    unfold mapComponent
    rw [ha]

/-- Witness for C6: `compC6`'s reset extraction fails, yet it compiles
to `(pcC6, mcC6)` with no reset, and reset leaves a concrete state
dictionary untouched. -/
theorem claim_C6_optional_reset_witness :
    compC6.parseReset = .error (.extraction "reset not resolvable") ∧
    mapComponent compC6 false = .ok (pcC6, mcC6) ∧
    pcC6.pure_reset = none ∧
    procReset pcC6.sourceComp pcC6.pure_reset [("v", ⟨[1], .arr ⟨[1], [2]⟩⟩)] =
      .ok [("v", ⟨[1], .arr ⟨[1], [2]⟩⟩)] :=
  ⟨rfl, rfl,
   ((claim_C6_optional_reset compC6 false (.extraction "reset not resolvable")
      .typeError pcC6 mcC6).1 rfl rfl).1,
   ((claim_C6_optional_reset compC6 false (.extraction "reset not resolvable")
      .typeError pcC6 mcC6).1 rfl rfl).2 _⟩

/-- C10: with exactly one declared update output slot, `run_spk` wraps
the raw return value in a singleton list, so the whole value is written
to that slot; `reset` never wraps — its return value is iterated and
paired positionally with the declared reset output slots, so a single
reset output slot receives the first element of the iteration, not the
raw return. -/
theorem claim_C10_singleton_wrap (cfg : ModelCfg) (recv : String → NpArr)
    (vars vars2 : List (String × PyObj)) (oc : String) (src : Component)
    (ri : ResetParse) (varsR vars2R : List (String × VarCell)) (z : String) :
    (cfg.output_compartments = [oc] →
      computePhase cfg recv vars = .ok vars2 →
      ∃ fp fc,
        getArgs (gatherPhase cfg recv vars) cfg.parameters = .ok fp ∧
        getArgs (gatherPhase cfg recv vars) cfg.compartments = .ok fc ∧
        alookup vars2 oc = some (cfg.pure_fn fp fc)) ∧
    (ri.output_compartments = [z] →
      procReset src (some ri) varsR = .ok vars2R →
      ∃ fp fc l,
        resetParams src ri.parameters = .ok fp ∧
        resetComps varsR ri.compartments = .ok fc ∧
        pyIter (ri.fn fp fc) = some l ∧
        (l = [] → vars2R = varsR) ∧
        (∀ v0 rest, l = v0 :: rest → ∃ cell,
          alookup varsR z = some cell ∧
          vars2R = aset varsR z ⟨cell.shape, v0⟩)) := by
  constructor
  · intro hoc hc
    unfold computePhase at hc
    dsimp only at hc
    cases hfp : getArgs (gatherPhase cfg recv vars) cfg.parameters with
    | error e => rw [hfp] at hc; exact absurd hc (by simp)
    | ok fp =>
        rw [hfp] at hc
        dsimp only at hc
        cases hfc : getArgs (gatherPhase cfg recv vars) cfg.compartments with
        | error e => rw [hfc] at hc; exact absurd hc (by simp)
        | ok fc =>
            rw [hfc] at hc
            dsimp only at hc
            rw [hoc] at hc
            simp only [List.length_cons, List.length_nil, if_true] at hc
            simp only [Except.ok.injEq] at hc
            refine ⟨fp, fc, rfl, rfl, ?_⟩
            rw [← hc]
            simp [writeOutputs, alookup_aset_self]
  · intro hz hr
    unfold procReset at hr
    dsimp only at hr
    cases hfp : resetParams src ri.parameters with
    | error e => rw [hfp] at hr; exact absurd hr (by simp)
    | ok fp =>
        rw [hfp] at hr
        dsimp only at hr
        cases hfc : resetComps varsR ri.compartments with
        | error e => rw [hfc] at hr; exact absurd hr (by simp)
        | ok fc =>
            rw [hfc] at hr
            dsimp only at hr
            cases hit : pyIter (ri.fn fp fc) with
            | none => rw [hit] at hr; exact absurd hr (by simp)
            | some l =>
                rw [hit] at hr
                dsimp only at hr
                refine ⟨fp, fc, l, rfl, rfl, hit, ?_, ?_⟩
                · intro hl
                  rw [hl, hz] at hr
                  simp only [List.zip_nil_right, varSetAll, Except.ok.injEq] at hr
                  exact hr.symm
                · intro v0 rest hl
                  rw [hl, hz] at hr
                  simp only [List.zip_cons_cons, List.zip_nil_left, varSetAll] at hr
                  cases hcell : alookup varsR z with
                  | none => rw [hcell] at hr; exact absurd hr (by simp)
                  | some cell =>
                      rw [hcell] at hr
                      dsimp only [varSetAll] at hr
                      simp only [Except.ok.injEq] at hr
                      exact ⟨cell, rfl, hr.symm⟩

/-- Witness for C10: the single-output update writes its whole tuple
return into slot `v`; the reset whose function returns a one-element
tuple writes that element (not the tuple) into slot `z`. -/
theorem claim_C10_singleton_wrap_witness :
    computePhase cfgC10 recvC10 varsC10 = .ok vars2C10 ∧
    alookup vars2C10 "v" = some (.tup [.arr ⟨[1], [9]⟩]) ∧
    procReset srcC10 (some riC10) varsRC10 = .ok vars2RC10 ∧
    alookup vars2RC10 "z" = some ⟨[1], .arr ⟨[], [4]⟩⟩ := by
  refine ⟨rfl, ?_, rfl, rfl⟩
  obtain ⟨fp, fc, _, _, h3⟩ :=
    (claim_C10_singleton_wrap cfgC10 recvC10 varsC10 vars2C10 "v" srcC10 riC10
      varsRC10 vars2RC10 "z").1 rfl rfl
  exact h3

theorem foldl_aset_isSome {α β : Type} (g : String × β → α) (av : List (String × β))
    (k : String) :
    ∀ acc : List (String × α),
      (alookup (av.foldl (fun vs kv => aset vs kv.1 (g kv)) acc) k).isSome ↔
        (alookup acc k).isSome ∨ k ∈ akeys av := by
  induction av with
  | nil => intro acc; simp [akeys]
  | cons hd tl ih =>
      intro acc
      simp only [List.foldl_cons]
      rw [ih, alookup_isSome_aset]
      simp only [akeys, List.map_cons, List.mem_cons]
      tauto

theorem alookup_mkVars_isSome (src : Component) (av : List (String × PyObj))
    (k : String) : (alookup (mkVars src av) k).isSome ↔ k ∈ akeys av := by
  unfold mkVars
  rw [foldl_aset_isSome
    (fun kv => (⟨varShapeOf kv.2, initVal src kv.1⟩ : VarCell)) av k []]
  simp [alookup]

theorem mkInPortsGo_isSome (avKeys : List String) (vars : List (String × VarCell)) :
    ∀ (conns : List Conn) (ports ip : List (String × List Nat)),
      mkInPortsGo avKeys vars conns ports = .ok ip → ∀ d : String,
      ((alookup ip d).isSome ↔
        (alookup ports d).isSome ∨ ∃ c ∈ conns, c.dest.2 = d ∧ d ∈ avKeys) := by
  intro conns
  induction conns with
  | nil =>
      intro ports ip h d
      simp only [mkInPortsGo, Except.ok.injEq] at h
      subst h; simp
  | cons c rest ih =>
      intro ports ip h d
      by_cases hq : c.dest.2 ∈ avKeys
      · simp only [mkInPortsGo, hq, if_true] at h
        cases hcell : alookup vars c.dest.2 with
        | none => rw [hcell] at h; exact absurd h (by simp)
        | some cell =>
            rw [hcell] at h
            rw [ih (aset ports c.dest.2 cell.shape) ip h d, alookup_isSome_aset]
            constructor
            · rintro ((hd | hp) | ⟨c2, hc2, hdd, hin⟩)
              · exact Or.inr ⟨c, by simp, hd.symm, hd ▸ hq⟩
              · exact Or.inl hp
              · exact Or.inr ⟨c2, by simp [hc2], hdd, hin⟩
            · rintro (hp | ⟨c2, hc2, hdd, hin⟩)
              · exact Or.inl (Or.inr hp)
              · rcases List.mem_cons.mp hc2 with h2 | h2
                · subst h2; exact Or.inl (Or.inl hdd.symm)
                · exact Or.inr ⟨c2, h2, hdd, hin⟩
      · simp only [mkInPortsGo, hq, if_false] at h
        rw [ih ports ip h d]
        constructor
        · rintro (hp | ⟨c2, hc2, hdd, hin⟩)
          · exact Or.inl hp
          · exact Or.inr ⟨c2, by simp [hc2], hdd, hin⟩
        · rintro (hp | ⟨c2, hc2, hdd, hin⟩)
          · exact Or.inl hp
          · rcases List.mem_cons.mp hc2 with h2 | h2
            · subst h2; exact absurd (hdd ▸ hin) hq
            · exact Or.inr ⟨c2, h2, hdd, hin⟩

theorem mkInPortsGo_ok_eq (avKeys : List String) (vars : List (String × VarCell)) :
    ∀ (conns : List Conn) (ports ip : List (String × List Nat)),
      mkInPortsGo avKeys vars conns ports = .ok ip →
      (connDests avKeys conns).Nodup →
      (∀ d ∈ connDests avKeys conns, alookup ports d = none) →
      ip = ports ++ inPortsOf avKeys vars conns := by
  intro conns
  induction conns with
  | nil =>
      intro ports ip h _ _
      simp only [mkInPortsGo, Except.ok.injEq] at h
      simp [inPortsOf, ← h]
  | cons c rest ih =>
      intro ports ip h hnd hfresh
      by_cases hq : c.dest.2 ∈ avKeys
      · simp only [mkInPortsGo, hq, if_true] at h
        cases hcell : alookup vars c.dest.2 with
        | none => rw [hcell] at h; exact absurd h (by simp)
        | some cell =>
            rw [hcell] at h
            have hcd : connDests avKeys (c :: rest) =
                c.dest.2 :: connDests avKeys rest := by
              simp [connDests, hq]
            rw [hcd] at hnd hfresh
            have hports : alookup ports c.dest.2 = none :=
              hfresh _ (by simp)
            have hnodup := List.nodup_cons.mp hnd
            have hfresh2 : ∀ d ∈ connDests avKeys rest,
                alookup (aset ports c.dest.2 cell.shape) d = none := by
              intro d hdm
              have hne : c.dest.2 ≠ d := fun e => hnodup.1 (e ▸ hdm)
              rw [alookup_aset_ne ports d c.dest.2 cell.shape hne]
              exact hfresh d (by simp [hdm])
            have ih2 := ih (aset ports c.dest.2 cell.shape) ip h hnodup.2 hfresh2
            rw [ih2, aset_fresh ports c.dest.2 cell.shape hports]
            simp [inPortsOf, hq, hcell]
      · simp only [mkInPortsGo, hq, if_false] at h
        have hcd : connDests avKeys (c :: rest) = connDests avKeys rest := by
          simp [connDests, hq]
        rw [hcd] at hnd hfresh
        have := ih ports ip h hnd hfresh
        rw [this]
        simp [inPortsOf, hq]

theorem mkOutPortsGo_ok_eq (vars : List (String × VarCell)) :
    ∀ (ocs : List String) (ports op : List (String × List Nat)),
      mkOutPortsGo vars ocs ports = .ok op →
      ocs.Nodup →
      (∀ oc ∈ ocs, alookup ports oc = none) →
      op = ports ++ outPortsOf vars ocs := by
  intro ocs
  induction ocs with
  | nil =>
      intro ports op h _ _
      simp only [mkOutPortsGo, Except.ok.injEq] at h
      simp [outPortsOf, ← h]
  | cons oc rest ih =>
      intro ports op h hnd hfresh
      simp only [mkOutPortsGo] at h
      cases hcell : alookup vars oc with
      | none => rw [hcell] at h; exact absurd h (by simp)
      | some cell =>
          rw [hcell] at h
          have hnodup := List.nodup_cons.mp hnd
          have hports : alookup ports oc = none := hfresh _ (by simp)
          have hfresh2 : ∀ d ∈ rest, alookup (aset ports oc cell.shape) d = none := by
            intro d hdm
            have hne : oc ≠ d := fun e => hnodup.1 (e ▸ hdm)
            rw [alookup_aset_ne ports d oc cell.shape hne]
            exact hfresh d (by simp [hdm])
          have ih2 := ih (aset ports oc cell.shape) op h hnodup.2 hfresh2
          rw [ih2, aset_fresh ports oc cell.shape hports]
          simp [outPortsOf, hcell]

theorem mkOutPortsGo_ok_cells (vars : List (String × VarCell)) :
    ∀ (ocs : List String) (ports op : List (String × List Nat)),
      mkOutPortsGo vars ocs ports = .ok op →
      ∀ oc ∈ ocs, (alookup vars oc).isSome := by
  intro ocs
  induction ocs with
  | nil => simp
  | cons oc0 rest ih =>
      intro ports op h oc hoc
      simp only [mkOutPortsGo] at h
      cases hcell : alookup vars oc0 with
      | none => rw [hcell] at h; exact absurd h (by simp)
      | some cell =>
          rw [hcell] at h
          rcases List.mem_cons.mp hoc with h1 | h1
          · subst h1; simp [hcell]
          · exact ih _ op h oc h1

theorem inPortsOf_keys (avKeys : List String) (vars : List (String × VarCell))
    (conns : List Conn)
    (hcells : ∀ c ∈ conns, c.dest.2 ∈ avKeys → (alookup vars c.dest.2).isSome) :
    akeys (inPortsOf avKeys vars conns) = connDests avKeys conns := by
  induction conns with
  | nil => simp [inPortsOf, connDests, akeys]
  | cons c rest ih =>
      have ih2 := ih (fun c2 hc2 => hcells c2 (by simp [hc2]))
      by_cases hq : c.dest.2 ∈ avKeys
      · have := hcells c (by simp) hq
        cases hcell : alookup vars c.dest.2 with
        | none => rw [hcell] at this; simp at this
        | some cell =>
            simp [inPortsOf, connDests, hq, hcell, akeys] at ih2 ⊢
            exact ih2
      · simp [inPortsOf, connDests, hq, akeys] at ih2 ⊢
        exact ih2

theorem outPortsOf_keys (vars : List (String × VarCell)) (ocs : List String)
    (hcells : ∀ oc ∈ ocs, (alookup vars oc).isSome) :
    akeys (outPortsOf vars ocs) = ocs := by
  induction ocs with
  | nil => simp [outPortsOf, akeys]
  | cons oc rest ih =>
      have ih2 := ih (fun oc2 hoc2 => hcells oc2 (by simp [hoc2]))
      have := hcells oc (by simp)
      cases hcell : alookup vars oc with
      | none => rw [hcell] at this; simp at this
      | some cell =>
          simp [outPortsOf, hcell, akeys] at ih2 ⊢
          exact ih2

/-- C5: compilation builds, per component, exactly one input port per
connection whose destination is in the All-Values key set (connections
with other destinations contribute no port), exactly one output port
per declared output compartment, each port shaped like the state
variable of the same name. -/
theorem claim_C5_port_creation (pc : ProcClass) (src : Component) (proc : ProcInst)
    (h : dynamicProcessInit pc src = .ok proc)
    (hnd : (connDests (akeys pc.allVals) pc.sourceComp.connections).Nodup)
    (hoc : pc.output_compartments.Nodup) :
    proc.vars = mkVars src pc.allVals ∧
    proc.inPorts =
      inPortsOf (akeys pc.allVals) (mkVars src pc.allVals)
        pc.sourceComp.connections ∧
    akeys proc.inPorts = connDests (akeys pc.allVals) pc.sourceComp.connections ∧
    (∀ p ∈ proc.inPorts, ∃ cell,
      alookup proc.vars p.1 = some cell ∧ p.2 = cell.shape) ∧
    proc.outPorts = outPortsOf (mkVars src pc.allVals) pc.output_compartments ∧
    akeys proc.outPorts = pc.output_compartments ∧
    (∀ p ∈ proc.outPorts, ∃ cell,
      alookup proc.vars p.1 = some cell ∧ p.2 = cell.shape) := by
  unfold dynamicProcessInit at h
  dsimp only at h
  cases hip : mkInPortsGo (akeys pc.allVals) (mkVars src pc.allVals)
      pc.sourceComp.connections [] with
  | error e => rw [hip] at h; exact absurd h (by simp)
  | ok ip =>
      rw [hip] at h
      dsimp only at h
      cases hop : mkOutPortsGo (mkVars src pc.allVals) pc.output_compartments [] with
      | error e => rw [hop] at h; exact absurd h (by simp)
      | ok op =>
          rw [hop] at h
          simp only [Except.ok.injEq] at h
          subst h
          have hipEq := mkInPortsGo_ok_eq (akeys pc.allVals) (mkVars src pc.allVals)
            pc.sourceComp.connections [] ip hip hnd (fun d _ => rfl)
          have hopEq := mkOutPortsGo_ok_eq (mkVars src pc.allVals)
            pc.output_compartments [] op hop hoc (fun oc _ => rfl)
          simp only [List.nil_append] at hipEq hopEq
          have hcellsIn : ∀ c ∈ pc.sourceComp.connections, c.dest.2 ∈ akeys pc.allVals →
              (alookup (mkVars src pc.allVals) c.dest.2).isSome := by
            intro c _ hq
            rw [alookup_mkVars_isSome]
            exact hq
          have hcellsOut := mkOutPortsGo_ok_cells (mkVars src pc.allVals)
            pc.output_compartments [] op hop
          refine ⟨rfl, hipEq, ?_, ?_, hopEq, ?_, ?_⟩
          · rw [hipEq]
            exact inPortsOf_keys _ _ _ hcellsIn
          · intro p hp
            rw [hipEq] at hp
            obtain ⟨c, _, hc2⟩ := List.mem_filterMap.mp hp
            by_cases hq : c.dest.2 ∈ akeys pc.allVals
            · rw [if_pos hq] at hc2
              cases hcell : alookup (mkVars src pc.allVals) c.dest.2 with
              | none => rw [hcell] at hc2; exact absurd hc2 (by simp)
              | some cell =>
                  rw [hcell] at hc2
                  simp only [Option.some.injEq] at hc2
                  exact ⟨cell, by rw [← hc2]; exact hcell, by rw [← hc2]⟩
            · rw [if_neg hq] at hc2; exact absurd hc2 (by simp)
          · rw [hopEq]
            exact outPortsOf_keys _ _ hcellsOut
          · intro p hp
            rw [hopEq] at hp
            obtain ⟨oc, _, hc2⟩ := List.mem_filterMap.mp hp
            cases hcell : alookup (mkVars src pc.allVals) oc with
            | none => rw [hcell] at hc2; exact absurd hc2 (by simp)
            | some cell =>
                rw [hcell] at hc2
                simp only [Option.map_some', Option.some.injEq] at hc2
                exact ⟨cell, by rw [← hc2]; exact hcell, by rw [← hc2]⟩

/-- Witness for C5: the no-connection component with one state slot `v`
and one parameter `k` compiles to an actor with state variables
`{k, v}`, zero input ports and exactly one output port `v` of shape
`(1,)`. -/
theorem claim_C5_port_creation_witness :
    mapComponent compC5 false = .ok (pcC5, mcC5) ∧
    dynamicProcessInit pcC5 compC5 = .ok procC5 ∧
    akeys procC5.vars = ["k", "v"] ∧
    procC5.inPorts = [] ∧
    procC5.outPorts = [("v", [1])] ∧
    akeys procC5.outPorts = pcC5.output_compartments := by
  refine ⟨rfl, rfl, rfl, ?_, rfl, ?_⟩
  · exact (claim_C5_port_creation pcC5 compC5 procC5 rfl (by decide)
      (by decide)).2.1.trans (by rfl)
  · exact (claim_C5_port_creation pcC5 compC5 procC5 rfl (by decide)
      (by decide)).2.2.2.2.2.1

theorem init_port_iff_var (pc : ProcClass) (src : Component) (proc : ProcInst)
    (h : dynamicProcessInit pc src = .ok proc) (c : Conn)
    (hc : c ∈ pc.sourceComp.connections) :
    ((alookup proc.vars c.dest.2).isSome ↔ (alookup proc.inPorts c.dest.2).isSome) := by
  unfold dynamicProcessInit at h
  dsimp only at h
  cases hip : mkInPortsGo (akeys pc.allVals) (mkVars src pc.allVals)
      pc.sourceComp.connections [] with
  | error e => rw [hip] at h; exact absurd h (by simp)
  | ok ip =>
      rw [hip] at h
      dsimp only at h
      cases hop : mkOutPortsGo (mkVars src pc.allVals) pc.output_compartments [] with
      | error e => rw [hop] at h; exact absurd h (by simp)
      | ok op =>
          rw [hop] at h
          simp only [Except.ok.injEq] at h
          subst h
          rw [alookup_mkVars_isSome,
            mkInPortsGo_isSome (akeys pc.allVals) (mkVars src pc.allVals)
              pc.sourceComp.connections [] ip hip c.dest.2]
          simp only [alookup, Option.isSome_none, Bool.false_eq_true, false_or]
          constructor
          · intro hin
            exact ⟨c, hc, rfl, hin⟩
          · rintro ⟨c2, _, hdd, hin⟩
            exact hin

theorem wireSource_ok (mapped : List (String × ProcInst)) (dc : String × String)
    (s : String × String) (y : Edge) (h : wireSource mapped dc s = .ok y) :
    y = ⟨dc, s⟩ := by
  unfold wireSource at h
  cases h1 : alookup mapped s.1 with
  | none => rw [h1] at h; exact absurd h (by simp)
  | some sp =>
      rw [h1] at h
      dsimp only at h
      cases h2 : alookup sp.outPorts s.2 with
      | none => rw [h2] at h; exact absurd h (by simp)
      | some _ =>
          rw [h2] at h
          simp only [Except.ok.injEq] at h
          exact h.symm

/-- C4: the wiring pass raises `UnresolvedReferenceError` (the Python
`KeyError` on resolution) when a connection names a destination
component absent from the compiled actors, or — once a connection is
actually wired — when a source component or source output port does not
resolve; a connection whose destination actor (as built by the
compiler) has no matching input port is skipped without error; any such
failing connection aborts the whole pass. -/
theorem claim_C4_wiring_resolution (mapped : List (String × ProcInst)) (conn : Conn)
    (pc : ProcClass) (src : Component) (dp : ProcInst) :
    (alookup mapped conn.dest.1 = none →
      wireConn mapped conn = .error (.unresolvedReference conn.dest.1)) ∧
    (alookup mapped conn.dest.1 = some dp →
      dynamicProcessInit pc src = .ok dp →
      conn ∈ pc.sourceComp.connections →
      alookup dp.inPorts conn.dest.2 = none →
      wireConn mapped conn = .ok []) ∧
    (alookup mapped conn.dest.1 = some dp →
      procDictHasVar dp conn.dest.2 = true →
      (alookup dp.inPorts conn.dest.2).isSome →
      (∃ s ∈ conn.sources,
        alookup mapped s.1 = none ∨
        ∃ sp, alookup mapped s.1 = some sp ∧ alookup sp.outPorts s.2 = none) →
      ∃ key, wireConn mapped conn = .error (.unresolvedReference key)) ∧
    (∀ components : List (String × Component),
      (∃ kv ∈ components, ∃ c2 ∈ (kv : String × Component).2.connections,
        ∀ r, wireConn mapped c2 ≠ .ok r) →
      ∀ r, wireLavaProcesses components mapped ≠ .ok r) := by
  refine ⟨?_, ?_, ?_, ?_⟩
  · intro hnone
    simp [wireConn, hnone]
  · intro hdp hinit hmem hnoport
    have hvar : procDictHasVar dp conn.dest.2 = false := by
      unfold procDictHasVar
      rw [Bool.eq_false_iff]
      intro hsome
      have := (init_port_iff_var pc src dp hinit conn hmem).mp hsome
      rw [hnoport] at this
      simp at this
    simp [wireConn, hdp, hvar]
  · intro hdp hvar hipsome hbad
    obtain ⟨s, hs, hsbad⟩ := hbad
    obtain ⟨ipShape, hip⟩ := Option.isSome_iff_exists.mp hipsome
    have hnotok : ∀ y, wireSource mapped conn.dest s ≠ .ok y := by
      intro y hy
      unfold wireSource at hy
      rcases hsbad with h1 | ⟨sp, h1, h2⟩
      · rw [h1] at hy; exact absurd hy (by simp)
      · rw [h1] at hy
        dsimp only at hy
        rw [h2] at hy
        exact absurd hy (by simp)
    have hnot := exMapM_not_ok (wireSource mapped conn.dest) conn.sources s hs hnotok
    cases hEx : exMapM (wireSource mapped conn.dest) conn.sources with
    | ok r => exact absurd hEx (hnot r)
    | error e =>
        cases e with
        | unresolvedReference key =>
            exact ⟨key, by simp [wireConn, hdp, hvar, hip, hEx]⟩
  · rintro components ⟨kv, hkv, c2, hc2, hbad⟩ r hr
    unfold wireLavaProcesses at hr
    cases hEx : exMapM (fun kv => wireComponent mapped kv.2) components with
    | error e => rw [hEx] at hr; exact absurd hr (by simp)
    | ok ess =>
        have hcompbad : ∀ y, wireComponent mapped kv.2 ≠ .ok y := by
          intro y hy
          unfold wireComponent at hy
          cases hEx2 : exMapM (wireConn mapped) kv.2.connections with
          | error e => rw [hEx2] at hy; exact absurd hy (by simp)
          | ok ess2 => exact exMapM_not_ok _ _ c2 hc2 hbad ess2 hEx2
        exact exMapM_not_ok _ components kv hkv hcompbad ess hEx

/-- Witness for C4: on the concrete two-actor wiring, a missing
destination component raises, a connection whose destination `zz` has
no input port is skipped, a missing source output port raises, and a
whole pass over a component holding the failing connection fails. -/
theorem claim_C4_wiring_resolution_witness :
    wireConn mappedC4 connC4badcomp = .error (.unresolvedReference "nope") ∧
    wireConn mappedC4 connC4skip = .ok [] ∧
    (∃ key, wireConn mappedC4 connC4badsrc = .error (.unresolvedReference key)) ∧
    wireLavaProcesses [("a", compC4Bad)] mappedC4 =
      .error (.unresolvedReference "nope") := by
  refine ⟨?_, ?_, ?_, rfl⟩
  · exact (claim_C4_wiring_resolution mappedC4 connC4badcomp pcC4 compC4A
      procC4A).1 rfl
  · exact (claim_C4_wiring_resolution mappedC4 connC4skip pcC4 compC4A
      procC4A).2.1 rfl rfl (by decide) rfl
  · exact (claim_C4_wiring_resolution mappedC4 connC4badsrc pcC4 compC4A
      procC4A).2.2.1 rfl rfl (by decide)
      ⟨("b", "nope"), by decide, Or.inr ⟨procC4B, rfl, rfl⟩⟩

/-- C2: when a connection is wired, exactly one edge per listed source
is registered into the destination's input port, and the value the
consumer receives on a tick is the arithmetic sum of the values all
bound producers emitted on that tick. -/
theorem claim_C2_fanin_summation (mapped : List (String × ProcInst)) (conn : Conn)
    (dp : ProcInst) (es : List Edge) (emits : String × String → NpArr)
    (h1 : alookup mapped conn.dest.1 = some dp)
    (h2 : procDictHasVar dp conn.dest.2 = true)
    (h3 : wireConn mapped conn = .ok es) :
    es.map Edge.src = conn.sources ∧
    recvFanIn emits es = npSumList (conn.sources.map emits) := by
  unfold wireConn at h3
  rw [h1] at h3
  dsimp only at h3
  rw [h2] at h3
  simp only [if_true] at h3
  cases hip : alookup dp.inPorts conn.dest.2 with
  | none => rw [hip] at h3; exact absurd h3 (by simp)
  | some ipShape =>
      rw [hip] at h3
      dsimp only at h3
      have hes : es = conn.sources.map (fun s => (⟨conn.dest, s⟩ : Edge)) :=
        exMapM_ok_map (wireSource mapped conn.dest) (fun s => ⟨conn.dest, s⟩)
          (wireSource_ok mapped conn.dest) conn.sources es h3
      subst hes
      have hcomp : (Edge.src ∘ fun s => (⟨conn.dest, s⟩ : Edge)) = id := by
        funext s; rfl
      constructor
      · rw [List.map_map, hcomp, List.map_id]
      · unfold recvFanIn
        rw [List.map_map]
        have hcomp2 : ((fun e : Edge => emits e.src) ∘
            fun s => (⟨conn.dest, s⟩ : Edge)) = emits := by
          funext s; rfl
        rw [hcomp2]

/-- Witness for C2: two producers bound into one input port emitting
`3` and `4` yield a received value of `7`. -/
theorem claim_C2_fanin_summation_witness :
    wireConn mappedC2 connC2 = .ok esC2 ∧
    recvFanIn emitsC2 esC2 = some ⟨[1], [7]⟩ := by
  refine ⟨rfl, ?_⟩
  have h := (claim_C2_fanin_summation mappedC2 connC2 procC2A esC2 emitsC2
    rfl rfl rfl).2
  rw [h]
  decide

theorem alookup_none_iff {α : Type} (xs : List (String × α)) (k : String) :
    alookup xs k = none ↔ k ∉ akeys xs := by
  induction xs with
  | nil => simp [alookup, akeys]
  | cons hd tl ih =>
      obtain ⟨k0, v⟩ := hd
      by_cases h : k0 = k
      · subst h; simp [alookup, akeys]
      · simp [alookup, akeys, h, ih, Ne.symm h]

theorem writeVars_plain_preserved (vars : List (String × VarCell)) :
    ∀ (host host' : List (String × HostAttr)),
      writeVars host vars = .ok host' →
      ∀ n v, alookup host n = some (.plain v) → alookup host' n = some (.plain v) := by
  induction vars with
  | nil =>
      intro host host' h n v hn
      simp only [writeVars, Except.ok.injEq] at h
      rw [← h]; exact hn
  | cons hd tl ih =>
      obtain ⟨name, cell⟩ := hd
      intro host host' h n v hn
      simp only [writeVars] at h
      cases hname : alookup host name with
      | none => rw [hname] at h; exact absurd h (by simp)
      | some attr =>
          rw [hname] at h
          cases attr with
          | plain w => exact ih host host' h n v hn
          | compartment w =>
              have hne : name ≠ n := by
                intro e
                rw [e, hn] at hname
                exact HostAttr.noConfusion (Option.some.inj hname)
              refine ih _ host' h n v ?_
              rw [alookup_aset_ne host n name _ hne]
              exact hn

theorem writeVars_novar_preserved (vars : List (String × VarCell)) :
    ∀ (host host' : List (String × HostAttr)),
      writeVars host vars = .ok host' →
      ∀ n, alookup vars n = none → alookup host' n = alookup host n := by
  induction vars with
  | nil =>
      intro host host' h n _
      simp only [writeVars, Except.ok.injEq] at h
      rw [← h]
  | cons hd tl ih =>
      obtain ⟨name, cell⟩ := hd
      intro host host' h n hno
      have hne : name ≠ n := by
        intro e
        simp [alookup, e] at hno
      have hno2 : alookup tl n = none := by
        simpa [alookup, hne] using hno
      simp only [writeVars] at h
      cases hname : alookup host name with
      | none => rw [hname] at h; exact absurd h (by simp)
      | some attr =>
          rw [hname] at h
          cases attr with
          | plain w => exact ih host host' h n hno2
          | compartment w =>
              rw [ih _ host' h n hno2,
                alookup_aset_ne host n name _ hne]

theorem writeVars_compartment_set (vars : List (String × VarCell)) :
    ∀ (host host' : List (String × HostAttr)),
      (akeys vars).Nodup →
      writeVars host vars = .ok host' →
      ∀ n cell w, alookup vars n = some cell →
        alookup host n = some (.compartment w) →
        alookup host' n = some (.compartment cell.value) := by
  induction vars with
  | nil => intro host host' _ _ n cell w hv; simp [alookup] at hv
  | cons hd tl ih =>
      obtain ⟨name, c0⟩ := hd
      intro host host' hnd h n cell w hv hh
      have hnd2 : (name :: akeys tl).Nodup := hnd
      have hnodup := List.nodup_cons.mp hnd2
      simp only [writeVars] at h
      by_cases hne : name = n
      · subst hne
        have hc0 : cell = c0 := by
          simp [alookup] at hv
          exact hv.symm
        subst hc0
        rw [hh] at h
        have htl : alookup tl name = none := (alookup_none_iff tl name).mpr hnodup.1
        rw [writeVars_novar_preserved tl _ host' h name htl,
          alookup_aset_self]
      · have hv2 : alookup tl n = some cell := by
          simpa [alookup, hne] using hv
        cases hname : alookup host name with
        | none => rw [hname] at h; exact absurd h (by simp)
        | some attr =>
            rw [hname] at h
            cases attr with
            | plain w2 =>
                exact ih host host' hnodup.2 h n cell w hv2 hh
            | compartment w2 =>
                refine ih _ host' hnodup.2 h n cell w hv2 ?_
                rw [alookup_aset_ne host n name _ hne]
                exact hh

theorem writeToNgc_unmapped (mapped : List (String × ProcInst)) :
    ∀ (comps comps' : List (String × Component)),
      writeToNgc mapped comps = .ok comps' →
      ∀ pn, alookup mapped pn = none → alookup comps' pn = alookup comps pn := by
  induction mapped with
  | nil =>
      intro comps comps' h pn _
      simp only [writeToNgc, Except.ok.injEq] at h
      rw [← h]
  | cons hd tl ih =>
      obtain ⟨pname, lc⟩ := hd
      intro comps comps' h pn hno
      have hne : pname ≠ pn := by
        intro e; simp [alookup, e] at hno
      have hno2 : alookup tl pn = none := by
        simpa [alookup, hne] using hno
      simp only [writeToNgc] at h
      cases hname : alookup comps pname with
      | none => rw [hname] at h; exact absurd h (by simp)
      | some comp =>
          rw [hname] at h
          dsimp only at h
          cases hw : writeVars comp.attrs lc.vars with
          | error e => rw [hw] at h; exact absurd h (by simp)
          | ok attrs2 =>
              rw [hw] at h
              rw [ih _ comps' h pn hno2,
                alookup_aset_ne comps pn pname _ hne]

/-- C9: `write_to_ngc` copies an actor's state-variable value into the
same-named host attribute only when that attribute is a Compartment:
plain host attributes keep their value, host attributes with no
same-named `Var` are untouched, every Compartment with a matching `Var`
receives that `Var`'s value, and components with no mapped process are
left unchanged. -/
theorem claim_C9_write_to_ngc (host host' : List (String × HostAttr))
    (vars : List (String × VarCell)) (h : writeVars host vars = .ok host')
    (hnd : (akeys vars).Nodup) :
    (∀ n v, alookup host n = some (.plain v) →
      alookup host' n = some (.plain v)) ∧
    (∀ n, alookup vars n = none → alookup host' n = alookup host n) ∧
    (∀ n cell w, alookup vars n = some cell →
      alookup host n = some (.compartment w) →
      alookup host' n = some (.compartment cell.value)) ∧
    (∀ (mapped : List (String × ProcInst))
       (comps comps' : List (String × Component)),
      writeToNgc mapped comps = .ok comps' →
      ∀ pn, alookup mapped pn = none → alookup comps' pn = alookup comps pn) :=
  ⟨writeVars_plain_preserved vars host host' h,
   writeVars_novar_preserved vars host host' h,
   writeVars_compartment_set vars host host' hnd h,
   fun mapped comps comps' hW pn hpn =>
     writeToNgc_unmapped mapped comps comps' hW pn hpn⟩

/-- Witness for C9: syncing the concrete actor back writes `8` into
compartment `v`, skips the plain parameter `k` (whose `Var` holds `6`),
and leaves `other` untouched. -/
theorem claim_C9_write_to_ngc_witness :
    writeVars hostC9 varsC9 = .ok hostC9After ∧
    alookup hostC9After "v" = some (.compartment (.arr ⟨[1], [8]⟩)) ∧
    alookup hostC9After "k" = some (.plain (.arr ⟨[1], [5]⟩)) ∧
    alookup hostC9After "other" = some (.plain (.arr ⟨[1], [9]⟩)) := by
  refine ⟨by rfl, ?_, ?_, ?_⟩
  · exact (claim_C9_write_to_ngc hostC9 hostC9After varsC9 (by rfl)
      (by decide)).2.2.1 "v" ⟨[1], .arr ⟨[1], [8]⟩⟩ (.arr ⟨[1], [2]⟩) rfl rfl
  · exact (claim_C9_write_to_ngc hostC9 hostC9After varsC9 (by rfl)
      (by decide)).1 "k" (.arr ⟨[1], [5]⟩) rfl
  · exact (claim_C9_write_to_ngc hostC9 hostC9After varsC9 (by rfl)
      (by decide)).2.1 "other" rfl

/-- C7: calling `rebuild_lava` while a runtime is in progress only
warns: it raises nothing and returns with the whole context — dynamic
process classes, model classes, mapped instances and the
exited-runtime flag — unchanged; after `stop`, the running guard no
longer blocks a retry. -/
theorem claim_C7_rebuild_while_running (ctx : Ctx) (compatible toggleOff : Bool)
    (h : ctx.inRuntime = true) :
    rebuildLava compatible ctx toggleOff = (none, ctx) ∧
    (stopRuntime ctx).inRuntime = false := by
  constructor
  · unfold rebuildLava
    rw [h]
    simp
  · unfold stopRuntime
    rw [h]
    simp

/-- Witness for C7: the concrete running context is returned untouched,
mappings included. -/
theorem claim_C7_rebuild_while_running_witness :
    rebuildLava true ctxC7 true = (none, ctxC7) ∧
    (rebuildLava true ctxC7 true).2.dynProcesses = ctxC7.dynProcesses ∧
    (rebuildLava true ctxC7 true).2.mapped = ctxC7.mapped ∧
    (stopRuntime ctxC7).inRuntime = false := by
  have h := claim_C7_rebuild_while_running ctxC7 true true rfl
  exact ⟨h.1, by rw [h.1], by rw [h.1], h.2⟩

/-- Counterexample to C3 as stated: on `ctxC3` the rebuild aborts with
the second component's extraction error, yet the dynamic-process entry
for the first component has already been replaced (its
output-compartment list changes from `["oldA"]` to `["v"]`), so the
previously built class mapping is not left exactly as it was. -/
theorem claim_C3_counterexample :
    (rebuildLava true ctxC3 true).1.isSome = true ∧
    Option.map (fun pc : ProcClass => pc.output_compartments)
      (alookup ctxC3.dynProcesses "a") = some ["oldA"] ∧
    Option.map (fun pc : ProcClass => pc.output_compartments)
      (alookup (rebuildLava true ctxC3 true).2.dynProcesses "a") = some ["v"] :=
  ⟨by rfl, by rfl, by rfl⟩

/-- C3 (amended): a failure while recompiling the classes aborts the
rebuild — the error propagates, the instantiate and wiring phases never
run, so the mapped-instance set, the exited-runtime flag and the
pending-rebuild flag are left unchanged — but the dynamic process and
model class mappings keep the per-component replacements already made
before the failure (no rollback). -/
theorem claim_C3_rebuild_abort (ctx : Ctx) (toggleOff : Bool) (e : Err)
    (p' : List (String × ProcClass)) (m' : List (String × ModelCfg))
    (h1 : ctx.inRuntime = false)
    (h2 : updateDynamicClasses ctx.lagging ctx.components
      (ctx.dynProcesses, ctx.dynModels) = (some e, (p', m'))) :
    (rebuildLava true ctx toggleOff).1 = some (.compile e) ∧
    (rebuildLava true ctx toggleOff).2.mapped = ctx.mapped ∧
    (rebuildLava true ctx toggleOff).2.exitedRuntime = ctx.exitedRuntime ∧
    (rebuildLava true ctx toggleOff).2.rebuildFlag = ctx.rebuildFlag ∧
    (rebuildLava true ctx toggleOff).2.dynProcesses = p' ∧
    (rebuildLava true ctx toggleOff).2.dynModels = m' := by
  unfold rebuildLava
  rw [h1]
  simp only [Bool.false_eq_true, if_false, Bool.not_true]
  rw [h2]
  exact ⟨rfl, rfl, rfl, rfl, rfl, rfl⟩

/-- Witness for C3 (amended): on `ctxC3` the rebuild reports component
`b`'s extraction error, leaves the mapped instances, the terminal flag
and the pending-rebuild flag unchanged, and keeps the partially
replaced class mappings. -/
theorem claim_C3_rebuild_abort_witness :
    (rebuildLava true ctxC3 true).1 = some (.compile (.extraction "bad update")) ∧
    (rebuildLava true ctxC3 true).2.mapped = ctxC3.mapped ∧
    (rebuildLava true ctxC3 true).2.exitedRuntime = ctxC3.exitedRuntime :=
  have h := claim_C3_rebuild_abort ctxC3 true (.extraction "bad update")
    (updateDynamicClasses ctxC3.lagging ctxC3.components
      (ctxC3.dynProcesses, ctxC3.dynModels)).2.1
    (updateDynamicClasses ctxC3.lagging ctxC3.components
      (ctxC3.dynProcesses, ctxC3.dynModels)).2.2
    rfl rfl
  ⟨h.1, h.2.1, h.2.2.1⟩

theorem lcSteps_terminal (ops : List LcOp) :
    ∀ ctx : Ctx, ctx.exitedRuntime = true → ctx.inRuntime = false →
      (∀ o ∈ ops, o.isRebuild = false) →
      (ops.foldl lcStep ctx).exitedRuntime = true ∧
      (ops.foldl lcStep ctx).inRuntime = false := by
  induction ops with
  | nil => intro ctx hex hin _; exact ⟨hex, hin⟩
  | cons o rest ih =>
      intro ctx hex hin hops
      have hstep : (lcStep ctx o).exitedRuntime = true ∧
          (lcStep ctx o).inRuntime = false := by
        cases o with
        | start => simp [lcStep, startRuntime, hin, hex]
        | stop => simp [lcStep, stopRuntime, hin, hex]
        | pause => exact ⟨hex, hin⟩
        | runT t => exact ⟨hex, hin⟩
        | rebuild c t =>
            have hbad := hops (LcOp.rebuild c t) (List.mem_cons_self _ _)
            simp [LcOp.isRebuild] at hbad
      simp only [List.foldl_cons]
      exact ih (lcStep ctx o) hstep.1 hstep.2
        (fun o2 ho2 => hops o2 (by simp [ho2]))

/-- C8: at most one run lifecycle per build — starting while running is
a no-op; once the runtime has exited, any sequence of
start/stop/pause/run operations leaves the terminal flag set and never
re-enters the running state; a successful rebuild clears the terminal
flag and the next start runs again. -/
theorem claim_C8_run_lifecycle (ctx : Ctx) (ops : List LcOp) (toggleOff : Bool) :
    (ctx.inRuntime = true → lcStep ctx .start = ctx) ∧
    (ctx.exitedRuntime = true → ctx.inRuntime = false →
      (∀ o ∈ ops, o.isRebuild = false) →
      (ops.foldl lcStep ctx).exitedRuntime = true ∧
      (ops.foldl lcStep ctx).inRuntime = false) ∧
    (ctx.inRuntime = false →
      (rebuildLava true ctx toggleOff).1 = none →
      (rebuildLava true ctx toggleOff).2.exitedRuntime = false ∧
      (rebuildLava true ctx toggleOff).2.inRuntime = false ∧
      (lcStep (rebuildLava true ctx toggleOff).2 .start).inRuntime = true) := by
  refine ⟨?_, ?_, ?_⟩
  · intro h
    simp [lcStep, startRuntime, h]
  · intro hex hin hops
    exact lcSteps_terminal ops ctx hex hin hops
  · intro hin hok
    unfold rebuildLava at hok ⊢
    rw [hin] at hok ⊢
    simp only [Bool.false_eq_true, if_false, Bool.not_true] at hok ⊢
    split at hok
    · simp at hok
    · split at hok
      · simp at hok
      · split at hok
        · simp at hok
        · refine ⟨rfl, rfl, ?_⟩
          simp [lcStep, startRuntime, hin]

/-- Witness for C8: starting the already-running context is a no-op;
after the terminal stop, the sequence start–run–start never re-enters
the runtime; the successful rebuild of `ctxC8` clears the terminal flag
and the following start runs. -/
theorem claim_C8_run_lifecycle_witness :
    lcStep ctxC8run .start = ctxC8run ∧
    ((([.start, .runT 2, .start] : List LcOp).foldl lcStep
        ctxC8).exitedRuntime = true ∧
     (([.start, .runT 2, .start] : List LcOp).foldl lcStep
        ctxC8).inRuntime = false) ∧
    ((rebuildLava true ctxC8 true).2.exitedRuntime = false ∧
     (lcStep (rebuildLava true ctxC8 true).2 .start).inRuntime = true) := by
  refine ⟨?_, ?_, ?_⟩
  · exact (claim_C8_run_lifecycle ctxC8run [] true).1 rfl
  · exact (claim_C8_run_lifecycle ctxC8 [.start, .runT 2, .start] true).2.1
      rfl rfl (by decide)
  · have h := (claim_C8_run_lifecycle ctxC8 [] true).2.2 rfl (by rfl)
    exact ⟨h.1, h.2.2⟩

end NgcLava
